import Mathlib

/-!
Shallow embedding of the retrieval-augmented completion service
(`conversation_manager.py`, `rag_service.py`, `api.py`).

The conversation store (`ConversationManager._history`, a `defaultdict`
keyed by client id) is modelled as an association list from client ids to
message lists; dictionary reads that would implicitly create an empty entry
are modelled by `hist_of`, which defaults a missing key to the empty list.
-/

structure Message where
  role : String
  content : String
deriving DecidableEq, Repr

abbrev Store := List (String × List Message)

/-- Lookup of `self._history[client_id]` presence (`client_id in self._history`). -/
def Store.find : Store → String → Option (List Message)
  | [], _ => none
  | (k, v) :: rest, cid => if k = cid then some v else Store.find rest cid

/-- Dictionary assignment `self._history[client_id] = h` (insert or replace). -/
def Store.set : Store → String → List Message → Store
  | [], cid, h => [(cid, h)]
  | (k, v) :: rest, cid, h =>
      if k = cid then (cid, h) :: rest else (k, v) :: Store.set rest cid h

/-- Defaultdict read: a missing client id reads as the empty list. -/
def hist_of (s : Store) (cid : String) : List Message :=
  (Store.find s cid).getD []

/-- `ConversationManager.add_message`: appends the message unconditionally.
The source performs no validation of the role string. -/
def add_message (s : Store) (cid role content : String) : Store :=
  Store.set s cid (hist_of s cid ++ [Message.mk role content])

/-- `ConversationManager.clear_history`: if the client id is a key, the entry
is reassigned to the empty list (the key itself stays present) and `true` is
returned; otherwise the store is untouched and `false` is returned. -/
def clear_history (s : Store) (cid : String) : Store × Bool :=
  match Store.find s cid with
  | some _ => (Store.set s cid [], true)
  | none => (s, false)

/-- The filter `[msg for msg in h if msg["role"] != "system"]`. -/
def filter_system (h : List Message) : List Message :=
  h.filter (fun m => m.role != "system")

/-- `ConversationManager.get_history`. -/
def get_history (s : Store) (cid : String) (include_system : Bool) : List Message :=
  match Store.find s cid with
  | none => []
  | some h => if include_system then h else filter_system h

/-- `ConversationManager.get_formatted_history`.  The Python body returns
`history[-max_turns:] if len(history) > max_turns else history`; for
`max_turns = 0` the slice `history[-0:]` is the whole list, which the inner
`if` reproduces. -/
def get_formatted_history (s : Store) (cid : String) (max_turns : Nat) : List Message :=
  match Store.find s cid with
  | none => []
  | some h =>
    let hist := filter_system h
    if hist.length > max_turns then
      if max_turns = 0 then hist else hist.drop (hist.length - max_turns)
    else hist

/-- `RAGService._message_exists`: scans the whole history of the client for a
message with the given role and content. -/
def message_exists (s : Store) (cid role content : String) : Bool :=
  match Store.find s cid with
  | none => false
  | some h => h.any (fun m => m.role == role && m.content == content)

-- Basic store lemmas

theorem Store.find_set_self (s : Store) (cid : String) (h : List Message) :
    Store.find (Store.set s cid h) cid = some h := by
  induction s with
  | nil => simp [Store.set, Store.find]
  | cons kv rest ih =>
    obtain ⟨k, v⟩ := kv
    by_cases hk : k = cid
    · simp [Store.set, Store.find, hk]
    · simp [Store.set, Store.find, hk, ih]

theorem Store.set_set (s : Store) (cid : String) (a b : List Message) :
    Store.set (Store.set s cid a) cid b = Store.set s cid b := by
  induction s with
  | nil => simp [Store.set]
  | cons kv rest ih =>
    obtain ⟨k, v⟩ := kv
    by_cases hk : k = cid
    · simp [Store.set, hk]
    · simp [Store.set, hk, ih]

theorem hist_of_set (s : Store) (cid : String) (h : List Message) :
    hist_of (Store.set s cid h) cid = h := by
  simp [hist_of, Store.find_set_self]

theorem find_add_message (s : Store) (cid role content : String) :
    Store.find (add_message s cid role content) cid
      = some (hist_of s cid ++ [Message.mk role content]) := by
  simp [add_message, Store.find_set_self]

theorem hist_of_add_message (s : Store) (cid role content : String) :
    hist_of (add_message s cid role content) cid
      = hist_of s cid ++ [Message.mk role content] := by
  simp [hist_of, find_add_message]

-- Retrieval (`RAGService._retrieve_context` / `_format_context`)

/-- A retrieved node after score extraction: `{"text": ..., "metadata": ...,
"score": ...}`.  Scores are modelled as rationals; only order comparisons
against the threshold are performed on them. -/
structure ContextChunk where
  text : String
  metadata : List (String × String)
  score : ℚ
deriving DecidableEq, Repr

/-- `metadata.get(key, default)`. -/
def meta_get (m : List (String × String)) (key dflt : String) : String :=
  match m.find? (fun kv => kv.1 == key) with
  | some kv => kv.2
  | none => dflt

/-- The filtering loop of `RAGService._retrieve_context`: a candidate is
skipped when `score < similarity_threshold` and kept otherwise.  The call
into the vector index (`retriever.retrieve(query)`) is the external
collaborator; its ranked output is the `nodes` argument. -/
def retrieve_context (nodes : List ContextChunk) (similarity_threshold : ℚ) :
    List ContextChunk :=
  nodes.filter (fun c => !(decide (c.score < similarity_threshold)))

/-- One step of the enumeration loop in `RAGService._format_context`,
starting from 1-based index `i`. -/
def format_chunks : Nat → List ContextChunk → String
  | _, [] => ""
  | i, c :: rest =>
      "Context " ++ toString i ++ "(Source:" ++ meta_get c.metadata "source" "Unknown source"
        ++ "):\n" ++ c.text ++ "\n\n" ++ format_chunks (i + 1) rest

/-- `RAGService._format_context`.  For an empty list the Python function
returns the boolean `False`; every consumer only tests truthiness, and both
`False` and the empty string are falsy, so the empty string models that
return value. -/
def format_context (contexts : List ContextChunk) : String :=
  if contexts = [] then ""
  else "The following is contextual information related to the query:\n\n"
        ++ format_chunks 1 contexts

/-- Python truthiness test `not query or query.strip() == ""`: true exactly
when every character of the query is whitespace (including the empty
string). -/
def is_blank (s : String) : Bool :=
  s.toList.all (fun ch => ch.isWhitespace)

-- Prompt assembly (`RAGService._create_messages`)

/-- `RAGService._create_messages query context client_id include_history`.
`sys` is the configured system prompt (`self.config.get("system_prompt", ...)`),
`s` the conversation store the service reads history from.  A `client_id`
of `none` or `""` is falsy in the Python guard `not client_id`. -/
def create_messages (sys : String) (s : Store) (query context : String)
    (cid? : Option String) (include_history : Bool) : List Message :=
  let base : List Message :=
    if context = "" then
      [Message.mk "system" sys]
    else
      [Message.mk "system" sys,
       Message.mk "user"
         (context ++ "\n\n以下是我的查询:\n" ++ query ++ "\n\n请根据提供的上下文回答问题。")]
  let falsy_cid : Bool :=
    match cid? with
    | none => true
    | some cid => cid == ""
  if !include_history || falsy_cid then
    if context = "" then base ++ [Message.mk "user" query] else base
  else
    let cid := match cid? with | some c => c | none => ""
    -- the source calls get_formatted_history with its default max_turns = 10
    let history := get_formatted_history s cid 10
    let complete := Message.mk "system" sys :: history
    if context = "" then
      let dup : Bool :=
        match history.getLast? with
        | some m => m.role == "user" && m.content == query
        | none => false
      if dup then complete else complete ++ [Message.mk "user" query]
    else
      complete

-- Single-shot orchestration (`RAGService.create_completion`)

structure CompletionOutcome where
  completion : String
  is_error : Bool
  store : Store
deriving DecidableEq, Repr

/-- The error completion text `f"生成回复时发生错误: {str(e)}"`. -/
def error_reply (e : String) : String := "生成回复时发生错误: " ++ e

/-- `RAGService.create_completion` (non-streaming path).  The OpenAI client
call is modelled by `backend`, a function from the assembled message list to
either a raised error (`Except.error`) or the completion text of the
response (`Except.ok`).  On error the method returns an error payload and
leaves the store untouched; on success, when a truthy client id is present,
it first records the user query unless `_message_exists` already finds it
anywhere in the history, then records the assistant reply. -/
def create_completion (sys : String) (s : Store) (query : String)
    (cid? : Option String) (nodes : List ContextChunk)
    (similarity_threshold : ℚ) (include_history : Bool)
    (backend : List Message → Except String String) : CompletionOutcome :=
  let formatted_context :=
    if is_blank query then "" else format_context (retrieve_context nodes similarity_threshold)
  let eff_query := if is_blank query then "" else query
  let messages := create_messages sys s eff_query formatted_context cid? include_history
  match backend messages with
  | Except.error e =>
      { completion := error_reply e, is_error := true, store := s }
  | Except.ok completion_text =>
      let s1 :=
        match cid? with
        | none => s
        | some cid =>
            if cid = "" then s
            else
              let s2 := if message_exists s cid "user" query then s
                        else add_message s cid "user" query
              add_message s2 cid "assistant" completion_text
      { completion := completion_text, is_error := false, store := s1 }

-- Streaming orchestration (`api.py stream_response`)

/-- In-place update `history[i]["content"] += c` on a single client's list. -/
def modify_content : List Message → Nat → String → List Message
  | [], _, _ => []
  | m :: rest, 0, c => Message.mk m.role (m.content ++ c) :: rest
  | m :: rest, i + 1, c => m :: modify_content rest i c

/-- Loop state of `stream_response`: the chunks yielded so far, the store,
`assistant_message_index`, and the `content_yielded` flag. -/
structure StreamState where
  yielded : List String
  store : Store
  idx : Option Nat
  content_yielded : Bool
deriving DecidableEq, Repr

/-- One iteration of the `for chunk in response` loop of `stream_response`.
A delta of `none` models a chunk from which no content could be extracted
(or an explicit `None` content); an empty string is skipped by the guard
`content is not None and content != ""`.  The first non-empty delta is
appended as a fresh assistant message and its index remembered; later
deltas are concatenated onto that entry in place. -/
def stream_step (cid : String) (st : StreamState) (delta : Option String) :
    StreamState :=
  match delta with
  | none => st
  | some c =>
    if c = "" then st
    else
      match st.idx with
      | none =>
        let s1 := add_message st.store cid "assistant" c
        { yielded := st.yielded ++ [c], store := s1,
          idx := some ((hist_of s1 cid).length - 1), content_yielded := true }
      | some i =>
        { yielded := st.yielded ++ [c],
          store := Store.set st.store cid (modify_content (hist_of st.store cid) i c),
          idx := some i, content_yielded := true }

def fallback_message : String := "未能生成回复。"

def db_warning : String :=
  "错误: 向量数据库未加载，无法进行RAG检索。将仅使用用户查询生成回复。"

/-- `api.py stream_response` for one request: record the user query unless
`_message_exists` already finds it, retrieve context (or yield a warning
chunk when no index is loaded), run the delta loop, and fall back to a
fixed message when no content was yielded.  The backend call consumes
`create_messages sys s0 query fc (some cid) true`; its streamed reply is
abstracted as the given `deltas` sequence.  Returns the full sequence of
yielded chunks and the final store. -/
def stream_response (sys : String) (s : Store) (cid query : String)
    (has_index : Bool) (nodes : List ContextChunk)
    (similarity_threshold : ℚ) (deltas : List (Option String)) :
    List String × Store :=
  let s0 := if message_exists s cid "user" query then s
            else add_message s cid "user" query
  let warn : List String :=
    if is_blank query then []
    else if !has_index then [db_warning]
    else []
  let fc : String :=
    if is_blank query then ""
    else if !has_index then ""
    else format_context (retrieve_context nodes similarity_threshold)
  let _messages := create_messages sys s0 query fc (some cid) true
  let fin := deltas.foldl (stream_step cid) (StreamState.mk [] s0 none false)
  if fin.content_yielded then
    (warn ++ fin.yielded, fin.store)
  else
    (warn ++ fin.yielded ++ [fallback_message],
     add_message fin.store cid "assistant" fallback_message)

/-- The non-empty contents among a delta sequence, in order. -/
def clean_deltas (deltas : List (Option String)) : List String :=
  deltas.filterMap (fun d =>
    match d with
    | none => none
    | some c => if c = "" then none else some c)

/-- Number of messages in a history with the given role and content. -/
def count_messages (h : List Message) (role content : String) : Nat :=
  (h.filter (fun m => m.role == role && m.content == content)).length

-- auxiliary window-size lemma

theorem get_formatted_history_length_le (s : Store) (cid : String) (n : Nat)
    (hn : 1 ≤ n) : (get_formatted_history s cid n).length ≤ n := by
  cases hf : Store.find s cid with
  | none => simp [get_formatted_history, hf]
  | some h =>
    simp only [get_formatted_history, hf]
    by_cases hl : (filter_system h).length > n
    · have hn0 : n ≠ 0 := by omega
      simp only [if_pos hl, if_neg hn0, List.length_drop]
      omega
    · simp only [if_neg hl]
      omega

/-- Claim C7: every chunk surviving `_retrieve_context` filtering scores at
least the effective threshold; the comparison is the non-strict
`score >= threshold` (a candidate scoring exactly the threshold is kept);
and threshold 0 admits every candidate with a non-negative score. -/
theorem threshold_filter_nonstrict :
    (∀ (nodes : List ContextChunk) (thr : ℚ) (c : ContextChunk),
        c ∈ retrieve_context nodes thr → thr ≤ c.score)
    ∧ (∀ (nodes : List ContextChunk) (thr : ℚ) (c : ContextChunk),
        c ∈ nodes → thr ≤ c.score → c ∈ retrieve_context nodes thr)
    ∧ (∀ nodes : List ContextChunk,
        (∀ c ∈ nodes, (0:ℚ) ≤ c.score) → retrieve_context nodes 0 = nodes) := by
  refine ⟨?_, ?_, ?_⟩
  · intro nodes thr c hc
    have h2 := (List.mem_filter.mp hc).2
    simpa [not_lt] using h2
  · intro nodes thr c hc hle
    refine List.mem_filter.mpr ⟨hc, ?_⟩
    simpa [not_lt] using hle
  · intro nodes h
    rw [retrieve_context, List.filter_eq_self]
    intro c hc
    simpa [not_lt] using h c hc

/-- Claim C8: for a fixed candidate set, raising the similarity threshold
never admits new chunks: the survivors of the higher threshold form a
sublist (hence no longer a list) of the survivors of the lower one. -/
theorem threshold_monotone (nodes : List ContextChunk) (t1 t2 : ℚ) (h : t1 ≤ t2) :
    List.Sublist (retrieve_context nodes t2) (retrieve_context nodes t1)
    ∧ (retrieve_context nodes t2).length ≤ (retrieve_context nodes t1).length := by
  have hs : List.Sublist (retrieve_context nodes t2) (retrieve_context nodes t1) := by
    apply List.monotone_filter_right
    intro c hc
    simp only [Bool.not_eq_true', decide_eq_false_iff_not, not_lt] at hc ⊢
    exact le_trans h hc
  exact ⟨hs, hs.length_le⟩

/-- Claim C9 (amended): for every `max_turns >= 1`,
`get_formatted_history` returns exactly the last `max_turns` non-system
messages in original order (the full filtered list when it is short
enough), and an unknown client id yields the empty list; but for
`max_turns = 0` the Python slice `history[-0:]` returns the full filtered
list rather than the last zero messages. -/
theorem history_window_amended (s : Store) (cid : String) (n : Nat) :
    (1 ≤ n → get_formatted_history s cid n
        = (filter_system (hist_of s cid)).drop
            ((filter_system (hist_of s cid)).length - n))
    ∧ ((filter_system (hist_of s cid)).length ≤ n →
        get_formatted_history s cid n = filter_system (hist_of s cid))
    ∧ (Store.find s cid = none → get_formatted_history s cid n = [])
    ∧ (get_formatted_history s cid 0 = filter_system (hist_of s cid)) := by
  cases hf : Store.find s cid with
  | none =>
    simp [get_formatted_history, hf, hist_of, filter_system]
  | some h =>
    have hh : hist_of s cid = h := by simp [hist_of, hf]
    refine ⟨?_, ?_, ?_, ?_⟩
    · intro hn
      simp only [get_formatted_history, hf, hh]
      by_cases hl : (filter_system h).length > n
      · have hn0 : n ≠ 0 := by omega
        simp [if_pos hl, if_neg hn0]
      · have : (filter_system h).length - n = 0 := by omega
        simp [if_neg hl, this]
    · intro hle
      rw [hh] at hle
      have : ¬ (filter_system h).length > n := by omega
      simp [get_formatted_history, hf, if_neg this, hh]
    · intro hnone
      simp [hf] at hnone
    · simp only [get_formatted_history, hf, hh]
      by_cases hl : (filter_system h).length > 0
      · simp [if_pos hl]
      · simp [if_neg hl]

/-- Claim C9 counterexample: with one non-system message recorded,
`get_formatted_history` at window 0 returns that message, not the last
zero messages (the empty list) that the claim requires for every `n`. -/
theorem history_window_cex :
    get_formatted_history [("c", [Message.mk "user" "a"])] "c" 0
      = [Message.mk "user" "a"]
    ∧ get_formatted_history [("c", [Message.mk "user" "a"])] "c" 0 ≠ [] :=
  ⟨rfl, by decide⟩

/-- Claim C9 witness: the amended window equation at a concrete store. -/
theorem history_window_witness :
    get_formatted_history [("c", [Message.mk "user" "a", Message.mk "assistant" "b"])] "c" 1
      = (filter_system (hist_of [("c", [Message.mk "user" "a", Message.mk "assistant" "b"])] "c")).drop
          ((filter_system (hist_of [("c", [Message.mk "user" "a", Message.mk "assistant" "b"])] "c")).length - 1) :=
  (history_window_amended [("c", [Message.mk "user" "a", Message.mk "assistant" "b"])] "c" 1).1
    (by decide)

/-- Claim C5 (amended): `clear_history` on a never-seen client id returns
false and leaves no trace, and each call resets the client's sequence to
empty; but because clearing keeps the client id mapped (to an empty list),
a second immediate `clear_history` also returns true, not false: the
boolean reports key presence, not message presence. -/
theorem clear_semantics :
    (∀ (s : Store) (cid : String), Store.find s cid = none →
        clear_history s cid = (s, false))
    ∧ (∀ (s : Store) (cid role content : String),
        (clear_history (add_message s cid role content) cid).2 = true
        ∧ Store.find (clear_history (add_message s cid role content) cid).1 cid = some []
        ∧ (clear_history (clear_history (add_message s cid role content) cid).1 cid).2 = true
        ∧ Store.find (clear_history (clear_history (add_message s cid role content) cid).1 cid).1 cid
            = some []) := by
  constructor
  · intro s cid hf
    simp [clear_history, hf]
  · intro s cid role content
    have h1 := find_add_message s cid role content
    refine ⟨?_, ?_, ?_, ?_⟩
    · simp [clear_history, h1]
    · simp [clear_history, h1, Store.find_set_self]
    · simp [clear_history, h1, Store.find_set_self]
    · simp [clear_history, h1, Store.find_set_self, Store.set_set]

/-- Claim C5 counterexample: after one recorded message, two successive
`clear_history` calls both return true; the claim requires the second to
return false. -/
theorem clear_semantics_cex :
    (clear_history (add_message [] "c" "user" "hi") "c").2 = true
    ∧ (clear_history (clear_history (add_message [] "c" "user" "hi") "c").1 "c").2 = true :=
  ⟨rfl, rfl⟩

/-- Claim C5 witness: the amended clear semantics at concrete stores. -/
theorem clear_semantics_witness :
    clear_history [] "nobody" = ([], false)
    ∧ (clear_history (add_message [] "c" "user" "hi") "c").2 = true :=
  ⟨clear_semantics.1 [] "nobody" rfl, (clear_semantics.2 [] "c" "user" "hi").1⟩

/-- Claim C6 (amended): `add_message` appends the message unconditionally
for every role string; the source performs no role validation and has no
failure condition at all, so unrecognized roles are appended rather than
rejected. -/
theorem add_message_unvalidated (s : Store) (cid role content : String) :
    Store.find (add_message s cid role content) cid
      = some (hist_of s cid ++ [Message.mk role content]) :=
  find_add_message s cid role content

/-- Claim C6 counterexample: a role outside the set system, user,
assistant is appended to history instead of being rejected as an
InvalidArgument error. -/
theorem add_message_role_cex :
    Store.find (add_message [] "c" "hacker" "x") "c" = some [Message.mk "hacker" "x"]
    ∧ ("hacker" ≠ "system" ∧ "hacker" ≠ "user" ∧ "hacker" ≠ "assistant") :=
  ⟨rfl, by decide⟩

/-- Claim C10: prompt assembly always splices exactly the store's
10-turn trimmed history window: for every query, context and store the
built message list is the system message, then
`get_formatted_history s cid 10` (whose length is at most 10), then at
most one final query turn; no request parameter reaches the window
size. -/
theorem history_cap_ten (sys : String) (s : Store) (query ctx cid : String)
    (h : cid ≠ "") :
    (∃ tail : List Message, tail.length ≤ 1 ∧
      create_messages sys s query ctx (some cid) true
        = Message.mk "system" sys :: (get_formatted_history s cid 10 ++ tail))
    ∧ (get_formatted_history s cid 10).length ≤ 10 := by
  have hc : (cid == "") = false := beq_eq_false_iff_ne.mpr h
  refine ⟨?_, get_formatted_history_length_le s cid 10 (by omega)⟩
  by_cases hctx : ctx = ""
  · cases hdup : (match (get_formatted_history s cid 10).getLast? with
        | some m => m.role == "user" && m.content == query
        | none => false) with
    | true =>
      refine ⟨[], by simp, ?_⟩
      simp [create_messages, hc, hctx, hdup]
    | false =>
      refine ⟨[Message.mk "user" query], by simp, ?_⟩
      simp [create_messages, hc, hctx, hdup]
  · refine ⟨[], by simp, ?_⟩
    simp [create_messages, hc, hctx]

/-- Claim C10 witness: the cap at a concrete store and request. -/
theorem history_cap_ten_witness :
    (∃ tail : List Message, tail.length ≤ 1 ∧
      create_messages "sys" [] "q" "" (some "c") true
        = Message.mk "system" "sys" :: (get_formatted_history [] "c" 10 ++ tail))
    ∧ (get_formatted_history [] "c" 10).length ≤ 10 :=
  history_cap_ten "sys" [] "q" "" "c" (by decide)

/-- Claim C1 (code-bug evidence): with history inclusion requested, a known
client id, and a non-empty formatted context, the assembled message list is
just the system message followed by the trimmed history; the combined
context-and-query user turn built in `base_messages` is dropped. -/
theorem prompt_assembly_drops_context :
    create_messages "sys" [("c", [Message.mk "user" "hi", Message.mk "assistant" "yo"])]
        "q" "CTX" (some "c") true
      = [Message.mk "system" "sys", Message.mk "user" "hi", Message.mk "assistant" "yo"] := rfl

/-- Claim C3 (amended): when the backend call raises, single-shot
`create_completion` returns a result whose completion text carries the
error description instead of propagating the exception, flags the error,
and leaves the conversation store untouched: the error text is NOT
committed into the client's history in single-shot mode. -/
theorem single_shot_error_is_data (sys query e : String) (s : Store)
    (cid? : Option String) (nodes : List ContextChunk) (thr : ℚ) (inc : Bool) :
    create_completion sys s query cid? nodes thr inc (fun _ => Except.error e)
      = { completion := error_reply e, is_error := true, store := s } := rfl

/-- Claim C3 counterexample: with a known client id and an erroring
backend, the store after the call is unchanged, so the error text was not
committed to the client's conversation history as the claim requires. -/
theorem single_shot_error_cex :
    (create_completion "sys" [("c", [Message.mk "user" "hi"])] "q" (some "c") [] 0 true
        (fun _ => Except.error "boom")).store = [("c", [Message.mk "user" "hi"])]
    ∧ (create_completion "sys" [("c", [Message.mk "user" "hi"])] "q" (some "c") [] 0 true
        (fun _ => Except.error "boom")).completion = "生成回复时发生错误: boom" :=
  ⟨rfl, rfl⟩

-- Counting lemmas for the duplicate-suppression analysis

theorem count_messages_append (h h' : List Message) (role content : String) :
    count_messages (h ++ h') role content
      = count_messages h role content + count_messages h' role content := by
  simp [count_messages, List.filter_append]

theorem count_messages_single_role_ne (m : Message) (role content : String)
    (h : (m.role == role) = false) :
    count_messages [m] role content = 0 := by
  simp [count_messages, List.filter, h]

theorem count_messages_single_self (role content : String) :
    count_messages [Message.mk role content] role content = 1 := by
  simp [count_messages, List.filter]

theorem count_messages_zero_of_not_exists (s : Store) (cid role content : String)
    (h : message_exists s cid role content = false) :
    count_messages (hist_of s cid) role content = 0 := by
  unfold message_exists at h
  cases hf : Store.find s cid with
  | none => simp [hist_of, hf, count_messages]
  | some l =>
    rw [hf] at h
    have h2 : (l.any fun m => m.role == role && m.content == content) = false := h
    simp only [hist_of, hf, Option.getD_some, count_messages]
    rw [List.length_eq_zero, List.filter_eq_nil_iff]
    intro a ha hpa
    have h3 : (l.any fun m => m.role == role && m.content == content) = true :=
      List.any_eq_true.mpr ⟨a, ha, hpa⟩
    rw [h3] at h2
    exact Bool.true_eq_false.mp h2

theorem message_exists_add_self (s : Store) (cid role content : String) :
    message_exists (add_message s cid role content) cid role content = true := by
  simp [message_exists, find_add_message, List.any_append, List.any_cons]

theorem message_exists_mono (s : Store) (cid role content r2 c2 : String)
    (h : message_exists s cid role content = true) :
    message_exists (add_message s cid r2 c2) cid role content = true := by
  unfold message_exists at h
  cases hf : Store.find s cid with
  | none => rw [hf] at h; exact absurd h (by simp)
  | some l =>
    rw [hf] at h
    have h2 : (l.any fun m => m.role == role && m.content == content) = true := h
    simp only [message_exists, find_add_message, List.any_append, hist_of, hf,
      Option.getD_some, h2, Bool.true_or]

theorem create_completion_ok_store (sys : String) (s : Store) (query cid resp : String)
    (nodes : List ContextChunk) (thr : ℚ) (inc : Bool) (h : cid ≠ "") :
    (create_completion sys s query (some cid) nodes thr inc
        (fun _ => Except.ok resp)).store
      = add_message
          (if message_exists s cid "user" query then s
           else add_message s cid "user" query)
          cid "assistant" resp := by
  simp [create_completion, h]

/-- Claim C2 (amended): the user query is recorded into history exactly
when no message with role user and identical content exists anywhere in
the client's history (`_message_exists` scans the whole history, not just
the most recent user message); consequently two successive single-shot
completions with the same query, starting from a history containing no
such message, append exactly one user message with that content. -/
theorem duplicate_suppression :
    (∀ (sys : String) (s : Store) (cid query resp : String)
        (nodes : List ContextChunk) (thr : ℚ) (inc : Bool), cid ≠ "" →
      count_messages
          (hist_of (create_completion sys s query (some cid) nodes thr inc
              (fun _ => Except.ok resp)).store cid) "user" query
        = count_messages (hist_of s cid) "user" query
          + (if message_exists s cid "user" query = true then 0 else 1))
    ∧ (∀ (sys1 sys2 : String) (s : Store) (cid query r1 r2 : String)
        (nodes1 nodes2 : List ContextChunk) (t1 t2 : ℚ) (inc1 inc2 : Bool),
      cid ≠ "" → message_exists s cid "user" query = false →
      count_messages
          (hist_of (create_completion sys2
              (create_completion sys1 s query (some cid) nodes1 t1 inc1
                  (fun _ => Except.ok r1)).store
              query (some cid) nodes2 t2 inc2 (fun _ => Except.ok r2)).store cid)
          "user" query = 1) := by
  have key : ∀ (sys : String) (s : Store) (cid query resp : String)
      (nodes : List ContextChunk) (thr : ℚ) (inc : Bool), cid ≠ "" →
      count_messages
          (hist_of (create_completion sys s query (some cid) nodes thr inc
              (fun _ => Except.ok resp)).store cid) "user" query
        = count_messages (hist_of s cid) "user" query
          + (if message_exists s cid "user" query = true then 0 else 1) := by
    intro sys s cid query resp nodes thr inc hcid
    rw [create_completion_ok_store sys s query cid resp nodes thr inc hcid]
    have hz : count_messages [Message.mk "assistant" resp] "user" query = 0 :=
      count_messages_single_role_ne _ _ _ rfl
    cases hex : message_exists s cid "user" query with
    | true =>
      simp [hist_of_add_message, count_messages_append, hz]
    | false =>
      have ho : count_messages [Message.mk "user" query, Message.mk "assistant" resp]
          "user" query = 1 := by
        have := count_messages_append [Message.mk "user" query]
          [Message.mk "assistant" resp] "user" query
        simp only [List.singleton_append] at this
        rw [this, hz, count_messages_single_self]
      simp [hist_of_add_message, count_messages_append, ho]
  refine ⟨key, ?_⟩
  intro sys1 sys2 s cid query r1 r2 nodes1 nodes2 t1 t2 inc1 inc2 hcid hex
  have h0 : count_messages (hist_of s cid) "user" query = 0 :=
    count_messages_zero_of_not_exists s cid "user" query hex
  have hs1 : (create_completion sys1 s query (some cid) nodes1 t1 inc1
      (fun _ => Except.ok r1)).store
      = add_message (add_message s cid "user" query) cid "assistant" r1 := by
    rw [create_completion_ok_store sys1 s query cid r1 nodes1 t1 inc1 hcid,
      if_neg (by simp [hex])]
  have hex1 : message_exists (create_completion sys1 s query (some cid) nodes1 t1 inc1
      (fun _ => Except.ok r1)).store cid "user" query = true := by
    rw [hs1]
    exact message_exists_mono _ _ _ _ _ _ (message_exists_add_self s cid "user" query)
  have h1 : count_messages (hist_of (create_completion sys1 s query (some cid) nodes1 t1
      inc1 (fun _ => Except.ok r1)).store cid) "user" query = 1 := by
    rw [key sys1 s cid query r1 nodes1 t1 inc1 hcid, h0, if_neg (by simp [hex])]
  rw [key sys2 _ cid query r2 nodes2 t2 inc2 hcid, h1, if_pos hex1]

/-- Claim C2 counterexample: the most recent user message is "R", not
"Q", so by the claim a new query "Q" should be recorded; but because an
older user "Q" exists in history, the code records nothing: only the
assistant reply is appended. -/
theorem duplicate_suppression_cex :
    (((hist_of
        [("c", [Message.mk "user" "Q", Message.mk "assistant" "A",
                Message.mk "user" "R", Message.mk "assistant" "B"])] "c").filter
        (fun m => m.role == "user")).getLast? = some (Message.mk "user" "R")
    ∧ "R" ≠ "Q")
    ∧ (create_completion "sys"
        [("c", [Message.mk "user" "Q", Message.mk "assistant" "A",
                Message.mk "user" "R", Message.mk "assistant" "B"])]
        "Q" (some "c") [] 0 true (fun _ => Except.ok "resp")).store
      = [("c", [Message.mk "user" "Q", Message.mk "assistant" "A",
                Message.mk "user" "R", Message.mk "assistant" "B",
                Message.mk "assistant" "resp"])] :=
  ⟨⟨rfl, by decide⟩, rfl⟩

/-- Claim C2 witness: two runs from an empty store append one user turn. -/
theorem duplicate_suppression_witness :
    count_messages
        (hist_of (create_completion "y"
            (create_completion "x" [] "Q" (some "c") [] 0 true
                (fun _ => Except.ok "r1")).store
            "Q" (some "c") [] 0 true (fun _ => Except.ok "r2")).store "c")
        "user" "Q" = 1 :=
  duplicate_suppression.2 "x" "y" [] "c" "Q" "r1" "r2" [] [] 0 0 true true
    (by decide) (by decide)

-- Streaming accumulation lemmas

theorem modify_content_concat (h : List Message) (m : Message) (c : String) :
    modify_content (h ++ [m]) h.length c
      = h ++ [Message.mk m.role (m.content ++ c)] := by
  induction h with
  | nil => rfl
  | cons x xs ih => simp [modify_content, ih]

theorem clean_deltas_none (rest : List (Option String)) :
    clean_deltas (none :: rest) = clean_deltas rest := by
  simp [clean_deltas]

theorem clean_deltas_empty_str (rest : List (Option String)) :
    clean_deltas (some "" :: rest) = clean_deltas rest := by
  simp [clean_deltas]

theorem clean_deltas_cons (c : String) (rest : List (Option String)) (hc : c ≠ "") :
    clean_deltas (some c :: rest) = c :: clean_deltas rest := by
  simp [clean_deltas, hc]

theorem stream_fold_started (cid : String) (deltas : List (Option String))
    (ys : List String) (s0 : Store) (acc : String) :
    deltas.foldl (stream_step cid)
        (StreamState.mk ys
          (Store.set s0 cid (hist_of s0 cid ++ [Message.mk "assistant" acc]))
          (some (hist_of s0 cid).length) true)
      = StreamState.mk (ys ++ clean_deltas deltas)
          (Store.set s0 cid (hist_of s0 cid
            ++ [Message.mk "assistant"
                  (List.foldl (fun r c => r ++ c) acc (clean_deltas deltas))]))
          (some (hist_of s0 cid).length) true := by
  induction deltas generalizing ys acc with
  | nil => simp [clean_deltas]
  | cons d rest ih =>
    cases d with
    | none =>
      rw [List.foldl_cons]
      have hstep : stream_step cid
          (StreamState.mk ys
            (Store.set s0 cid (hist_of s0 cid ++ [Message.mk "assistant" acc]))
            (some (hist_of s0 cid).length) true) none
          = StreamState.mk ys
              (Store.set s0 cid (hist_of s0 cid ++ [Message.mk "assistant" acc]))
              (some (hist_of s0 cid).length) true := rfl
      rw [hstep, ih, clean_deltas_none]
    | some c =>
      by_cases hc : c = ""
      · subst hc
        rw [List.foldl_cons]
        have hstep : stream_step cid
            (StreamState.mk ys
              (Store.set s0 cid (hist_of s0 cid ++ [Message.mk "assistant" acc]))
              (some (hist_of s0 cid).length) true) (some "")
            = StreamState.mk ys
                (Store.set s0 cid (hist_of s0 cid ++ [Message.mk "assistant" acc]))
                (some (hist_of s0 cid).length) true := rfl
        rw [hstep, ih, clean_deltas_empty_str]
      · rw [List.foldl_cons]
        have hstep : stream_step cid
            (StreamState.mk ys
              (Store.set s0 cid (hist_of s0 cid ++ [Message.mk "assistant" acc]))
              (some (hist_of s0 cid).length) true) (some c)
            = StreamState.mk (ys ++ [c])
                (Store.set s0 cid (hist_of s0 cid ++ [Message.mk "assistant" (acc ++ c)]))
                (some (hist_of s0 cid).length) true := by
          simp only [stream_step, if_neg hc, hist_of_set]
          rw [show (hist_of s0 cid).length
                = (hist_of s0 cid ++ [Message.mk "assistant" acc]).length - 1 by simp]
          rw [show (hist_of s0 cid ++ [Message.mk "assistant" acc]).length - 1
                = (hist_of s0 cid).length by simp]
          rw [modify_content_concat, Store.set_set]
        rw [hstep, ih (ys ++ [c]) (acc ++ c), clean_deltas_cons c rest hc]
        simp

theorem stream_fold_fresh (cid : String) (deltas : List (Option String))
    (ys : List String) (s0 : Store) :
    deltas.foldl (stream_step cid) (StreamState.mk ys s0 none false)
      = if clean_deltas deltas = [] then StreamState.mk ys s0 none false
        else StreamState.mk (ys ++ clean_deltas deltas)
            (Store.set s0 cid (hist_of s0 cid
              ++ [Message.mk "assistant" (String.join (clean_deltas deltas))]))
            (some (hist_of s0 cid).length) true := by
  induction deltas generalizing ys with
  | nil => simp [clean_deltas]
  | cons d rest ih =>
    cases d with
    | none =>
      rw [List.foldl_cons, clean_deltas_none]
      have hstep : stream_step cid (StreamState.mk ys s0 none false) none
          = StreamState.mk ys s0 none false := rfl
      rw [hstep, ih]
    | some c =>
      by_cases hc : c = ""
      · subst hc
        rw [List.foldl_cons, clean_deltas_empty_str]
        have hstep : stream_step cid (StreamState.mk ys s0 none false) (some "")
            = StreamState.mk ys s0 none false := rfl
        rw [hstep, ih]
      · rw [List.foldl_cons, clean_deltas_cons c rest hc]
        have hlen : (hist_of (add_message s0 cid "assistant" c) cid).length - 1
            = (hist_of s0 cid).length := by
          rw [hist_of_add_message]
          simp
        have hstep : stream_step cid (StreamState.mk ys s0 none false) (some c)
            = StreamState.mk (ys ++ [c])
                (Store.set s0 cid (hist_of s0 cid ++ [Message.mk "assistant" c]))
                (some (hist_of s0 cid).length) true := by
          simp only [stream_step, if_neg hc, hlen]
          rfl
        rw [hstep, stream_fold_started cid rest (ys ++ [c]) s0 c]
        have hjoin : String.join (c :: clean_deltas rest)
            = List.foldl (fun r s => r ++ s) c (clean_deltas rest) := rfl
        simp [hjoin]

theorem stream_response_eval (sys : String) (s : Store) (cid query : String)
    (nodes : List ContextChunk) (thr : ℚ) (deltas : List (Option String)) :
    stream_response sys s cid query true nodes thr deltas
      = if clean_deltas deltas = [] then
          ([fallback_message],
           add_message (if message_exists s cid "user" query then s
                        else add_message s cid "user" query) cid "assistant"
             fallback_message)
        else
          (clean_deltas deltas,
           Store.set (if message_exists s cid "user" query then s
                      else add_message s cid "user" query) cid
             (hist_of (if message_exists s cid "user" query then s
                       else add_message s cid "user" query) cid
               ++ [Message.mk "assistant" (String.join (clean_deltas deltas))])) := by
  simp only [stream_response]
  rw [stream_fold_fresh]
  by_cases h : clean_deltas deltas = []
  · rw [if_pos h, if_pos h]
    cases hb : is_blank query <;> simp
  · rw [if_neg h, if_neg h]
    cases hb : is_blank query <;> simp

/-- Claim C4: in streaming mode (with an index loaded), the forwarded
chunks are exactly the non-empty deltas, their concatenation equals the
concatenation S of the non-empty deltas, and the assistant entry committed
to history has content S; when the delta sequence yields zero non-empty
deltas the fixed fallback message is both yielded and committed, so
forwarded output and history never diverge. -/
theorem stream_history_equivalence (sys : String) (s : Store) (cid query : String)
    (nodes : List ContextChunk) (thr : ℚ) (deltas : List (Option String)) :
    (clean_deltas deltas ≠ [] →
      (stream_response sys s cid query true nodes thr deltas).1 = clean_deltas deltas
      ∧ String.join (stream_response sys s cid query true nodes thr deltas).1
          = String.join (clean_deltas deltas)
      ∧ (hist_of (stream_response sys s cid query true nodes thr deltas).2 cid).getLast?
          = some (Message.mk "assistant" (String.join (clean_deltas deltas))))
    ∧ (clean_deltas deltas = [] →
      (stream_response sys s cid query true nodes thr deltas).1 = [fallback_message]
      ∧ (hist_of (stream_response sys s cid query true nodes thr deltas).2 cid).getLast?
          = some (Message.mk "assistant" fallback_message)) := by
  constructor
  · intro hne
    rw [stream_response_eval, if_neg hne]
    refine ⟨rfl, rfl, ?_⟩
    rw [hist_of_set, List.getLast?_concat]
  · intro heq
    rw [stream_response_eval, if_pos heq]
    refine ⟨rfl, ?_⟩
    rw [hist_of_add_message, List.getLast?_concat]

/-- Claim C4 witness: a concrete delta sequence concatenating to a string. -/
theorem stream_history_equivalence_witness :
    (stream_response "s" [] "c" "q" true [] 0
        [some "He", none, some "", some "llo"]).1
      = clean_deltas [some "He", none, some "", some "llo"]
    ∧ String.join (stream_response "s" [] "c" "q" true [] 0
        [some "He", none, some "", some "llo"]).1
        = String.join (clean_deltas [some "He", none, some "", some "llo"])
    ∧ (hist_of (stream_response "s" [] "c" "q" true [] 0
        [some "He", none, some "", some "llo"]).2 "c").getLast?
        = some (Message.mk "assistant"
            (String.join (clean_deltas [some "He", none, some "", some "llo"]))) :=
  (stream_history_equivalence "s" [] "c" "q" [] 0
    [some "He", none, some "", some "llo"]).1 (by decide)

/-- Claim C7 witness: a chunk scoring exactly the threshold is kept. -/
theorem threshold_filter_witness :
    ((1:ℚ) ≤ (ContextChunk.mk "t" [] 1).score
      ∧ ContextChunk.mk "t" [] 1 ∈ retrieve_context [ContextChunk.mk "t" [] 1] 1)
    ∧ retrieve_context [ContextChunk.mk "t" [] 1] 0 = [ContextChunk.mk "t" [] 1] :=
  ⟨⟨threshold_filter_nonstrict.1 [ContextChunk.mk "t" [] 1] 1 (ContextChunk.mk "t" [] 1)
      (by decide),
    threshold_filter_nonstrict.2.1 [ContextChunk.mk "t" [] 1] 1 (ContextChunk.mk "t" [] 1)
      (List.mem_cons_self _ _) (le_refl 1)⟩,
   threshold_filter_nonstrict.2.2 [ContextChunk.mk "t" [] 1]
      (by intro c hc; rw [List.mem_singleton.mp hc]; exact zero_le_one)⟩

/-- Claim C8 witness: monotonicity at thresholds 0 and 1. -/
theorem threshold_monotone_witness :
    List.Sublist (retrieve_context [ContextChunk.mk "t" [] 1] 1)
        (retrieve_context [ContextChunk.mk "t" [] 1] 0)
    ∧ (retrieve_context [ContextChunk.mk "t" [] 1] 1).length
        ≤ (retrieve_context [ContextChunk.mk "t" [] 1] 0).length :=
  threshold_monotone [ContextChunk.mk "t" [] 1] 0 1 zero_le_one
